import Mathlib

/-!
Verification of the ZenithBil encryption subsystem: a shallow embedding of
the CryptoEngine (`src/unnamed/part_001`, the Electron IPC handlers in
`src/unnamed/part_003`), the KeyManager (`src/src/utils/encryption/keyManager.ts`),
SecureStorage (`src/src/utils/encryption/secureStorage.ts`) and FileEncryption
(`src/src/utils/encryption/fileEncryption.ts`).

Byte sequences and JavaScript strings are embedded as `List Nat` (UTF-16/UTF-8
code units); timestamps (`Date.now()`, `Date` objects) are embedded as `Int`
milliseconds; the Node `crypto` randomness source is an explicit byte stream
`rng : Nat → Nat` together with a cursor that every draw advances.
Platform primitives that are not part of the repository (scrypt, the
AES-256-GCM cipher core, SHA-256, RSA key generation, btoa/atob) are modelled
by concrete executable functions that preserve the structure the code relies
on (determinism, stream-cipher XOR with a key/iv-derived keystream, a
key/iv/ciphertext-determined authentication tag, an exact base64 inverse pair).
-/

/-- One byte sequence to two hex digits per byte, modelling
`Buffer.toString('hex')` (digits kept as numeric values 0..15). -/
def hexEncode : List Nat → List Nat
  | [] => []
  | b :: rest => b / 16 :: b % 16 :: hexEncode rest

/-- Hex digits back to bytes, modelling `Buffer.from(s, 'hex')`. -/
def hexDecode : List Nat → List Nat
  | h :: lo :: rest => (h * 16 + lo) :: hexDecode rest
  | _ => []

theorem hexDecode_hexEncode : ∀ l : List Nat, hexDecode (hexEncode l) = l
  | [] => rfl
  | b :: rest => by
    simp only [hexEncode, hexDecode, hexDecode_hexEncode rest]
    have hb : b / 16 * 16 + b % 16 = b := by omega
    rw [hb]

theorem hexEncode_injective {a b : List Nat} (h : hexEncode a = hexEncode b) : a = b := by
  have := congrArg hexDecode h
  rwa [hexDecode_hexEncode, hexDecode_hexEncode] at this

theorem hexEncode_ne_nil {l : List Nat} (h : l ≠ []) : hexEncode l ≠ [] := by
  cases l with
  | nil => exact absurd rfl h
  | cons b rest => simp [hexEncode]

/-- Models `crypto.randomBytes(len)`: reads `len` bytes of the stream at the
current cursor and advances the cursor. -/
def randomBytes (rng : Nat → Nat) (ctr len : Nat) : List Nat × Nat :=
  ((List.range len).map (fun i => rng (ctr + i) % 256), ctr + len)

/-- Models the scrypt key-derivation function (`scryptAsync(password, salt,
keyLength)`): an unspecified deterministic function of password and salt
producing `keyLength` bytes. -/
def scryptDerive (password salt : List Nat) (keyLength : Nat) : List Nat :=
  let seed := (password.foldl (fun h b => h * 257 + b + 1) 7) * 1000003 +
              salt.foldl (fun h b => h * 257 + b + 1) 11
  (List.range keyLength).map (fun i => (seed * (i + 1) + i) % 256)

/-- Models the AES-256-GCM keystream for a given key and iv: the cipher
(`createCipheriv('aes-256-gcm', key, iv)`) is a stream cipher XORing the
plaintext with a key/iv-determined keystream. -/
def gcmKeystream (key iv : List Nat) (n : Nat) : List Nat :=
  let seed := (key.foldl (fun h b => h * 263 + b + 1) 3) * 1000033 +
              iv.foldl (fun h b => h * 269 + b + 1) 5
  (List.range n).map (fun i => (seed * (i + 2) + i * i) % 256)

/-- Models the GCM authentication tag (`cipher.getAuthTag()`): a 16-byte MAC
determined by key, iv and ciphertext. -/
def gcmTag (key iv ct : List Nat) : List Nat :=
  let seed := (key.foldl (fun h b => h * 271 + b + 1) 13) * 1000333 +
              iv.foldl (fun h b => h * 277 + b + 1) 17 +
              ct.foldl (fun h b => h * 281 + b + 1) 19
  (List.range 16).map (fun i => (seed * (i + 3) + i) % 256)

/-- `EncryptionConfig` from part_001 / cryptoEngine.ts (the algorithm is
fixed to the default 'aes-256-gcm': every construction site uses
`new CryptoEngine()` with no override). -/
structure EncryptionConfig where
  keyLength : Nat
  ivLength : Nat
  saltLength : Nat
  tagLength : Nat
deriving DecidableEq

/-- `CryptoEngine.DEFAULT_CONFIG`. -/
def DEFAULT_CONFIG : EncryptionConfig :=
  { keyLength := 32, ivLength := 16, saltLength := 32, tagLength := 16 }

/-- `EncryptionResult` envelope: all fields are hex strings in the source. -/
structure EncryptionResult where
  encryptedData : List Nat
  iv : List Nat
  salt : List Nat
  tag : Option (List Nat)
deriving DecidableEq

inductive CryptoError
  | invalidInput
  | authenticationFailure
deriving DecidableEq

/-- `CryptoEngine.encryptText(plaintext, password)` (part_001 lines 107-141;
the identical algorithm runs in the `crypto:encryptText` IPC handler of
part_003): reject empty inputs, draw fresh salt then iv from the random
source, derive the key with scrypt, encrypt with AES-256-GCM, return the
hex-encoded envelope with its auth tag. -/
def encryptText (cfg : EncryptionConfig) (rng : Nat → Nat) (ctr : Nat)
    (plaintext password : List Nat) : Except CryptoError (EncryptionResult × Nat) :=
  if plaintext = [] ∨ password = [] then .error .invalidInput
  else
    let salt := (randomBytes rng ctr cfg.saltLength).1
    let c1 := (randomBytes rng ctr cfg.saltLength).2
    let iv := (randomBytes rng c1 cfg.ivLength).1
    let c2 := (randomBytes rng c1 cfg.ivLength).2
    let key := scryptDerive password salt cfg.keyLength
    let ks := gcmKeystream key iv plaintext.length
    let ct := List.zipWith (fun a b => a ^^^ b) plaintext ks
    let tag := gcmTag key iv ct
    .ok ({ encryptedData := hexEncode ct, iv := hexEncode iv,
           salt := hexEncode salt, tag := some (hexEncode tag) }, c2)

/-- `CryptoEngine.decryptText(encryptionResult, password)` (part_001 lines
146-175): reject empty ciphertext or password, re-derive the key from the
envelope's salt, check the GCM tag (its absence or a mismatch makes
`decipher.final()` throw, surfaced as an authentication failure), and XOR the
ciphertext back to the plaintext. -/
def decryptText (cfg : EncryptionConfig) (res : EncryptionResult)
    (password : List Nat) : Except CryptoError (List Nat) :=
  if res.encryptedData = [] ∨ password = [] then .error .invalidInput
  else
    let salt := hexDecode res.salt
    let iv := hexDecode res.iv
    let key := scryptDerive password salt cfg.keyLength
    let ct := hexDecode res.encryptedData
    match res.tag with
    | some tagHex =>
      if hexDecode tagHex = gcmTag key iv ct then
        .ok (List.zipWith (fun a b => a ^^^ b) ct (gcmKeystream key iv ct.length))
      else .error .authenticationFailure
    | none => .error .authenticationFailure

theorem zipWith_xor_cancel :
    ∀ (t ks : List Nat), ks.length = t.length →
      List.zipWith (fun a b => a ^^^ b) (List.zipWith (fun a b => a ^^^ b) t ks) ks = t
  | [], _, _ => by simp
  | a :: t, [], h => by simp at h
  | a :: t, b :: ks, h => by
    simp only [List.zipWith]
    rw [zipWith_xor_cancel t ks (by simpa using h)]
    have hx : (a ^^^ b) ^^^ b = a := by
      rw [Nat.xor_assoc, Nat.xor_self, Nat.xor_zero]
    rw [hx]

theorem gcmKeystream_length (key iv : List Nat) (n : Nat) :
    (gcmKeystream key iv n).length = n := by
  simp [gcmKeystream]

/-- Decrypting an explicitly assembled GCM envelope (fresh salt/iv, scrypt
key, XOR keystream, matching tag) under the encrypting password returns the
plaintext. -/
theorem decryptText_roundtrip_aux (cfg : EncryptionConfig) (salt iv t p : List Nat)
    (ht : t ≠ []) (hp : p ≠ []) :
    decryptText cfg
      { encryptedData := hexEncode (List.zipWith (fun a b => a ^^^ b) t
          (gcmKeystream (scryptDerive p salt cfg.keyLength) iv t.length)),
        iv := hexEncode iv, salt := hexEncode salt,
        tag := some (hexEncode (gcmTag (scryptDerive p salt cfg.keyLength) iv
          (List.zipWith (fun a b => a ^^^ b) t
            (gcmKeystream (scryptDerive p salt cfg.keyLength) iv t.length)))) } p = .ok t := by
  generalize hkey : scryptDerive p salt cfg.keyLength = key
  generalize hks2 : gcmKeystream key iv t.length = ks
  generalize hct2 : List.zipWith (fun a b => a ^^^ b) t ks = ct
  have hkslen : ks.length = t.length := by rw [← hks2]; exact gcmKeystream_length _ _ _
  have hctlen : ct.length = t.length := by
    rw [← hct2, List.length_zipWith, hkslen, Nat.min_self]
  have hctne : ct ≠ [] := by
    intro hnil
    rw [hnil] at hctlen
    exact ht (List.eq_nil_of_length_eq_zero hctlen.symm)
  simp only [decryptText, hexDecode_hexEncode]
  rw [if_neg (show ¬(hexEncode ct = [] ∨ p = []) by
    rintro (h | h)
    · exact hexEncode_ne_nil hctne h
    · exact hp h)]
  rw [hkey, if_pos rfl, hctlen, hks2, ← hct2, zipWith_xor_cancel t ks hkslen]

/-- Core inversion lemma: a successful `encryptText` output decrypts back to
the plaintext under the same password. -/
theorem decryptText_of_encryptText {cfg : EncryptionConfig} {rng : Nat → Nat}
    {ctr : Nat} {t p : List Nat} {res : EncryptionResult} {c2 : Nat}
    (henc : encryptText cfg rng ctr t p = .ok (res, c2)) :
    decryptText cfg res p = .ok t := by
  by_cases hempty : t = [] ∨ p = []
  · simp [encryptText, hempty] at henc
  · push_neg at hempty
    obtain ⟨ht, hp⟩ := hempty
    simp only [encryptText, if_neg (show ¬(t = [] ∨ p = []) by tauto)] at henc
    injection henc with henc
    injection henc with hres hc2
    subst hres
    exact decryptText_roundtrip_aux cfg _ _ t p ht hp

/-- C1: for every non-empty plaintext `t` and non-empty password `p`,
`decryptText` applied to the result of `encryptText(t, p)` with the same
password `p` returns `t`. -/
theorem encryptText_decryptText_roundtrip (rng : Nat → Nat) (ctr : Nat)
    (t p : List Nat) (ht : t ≠ []) (hp : p ≠ []) :
    ∃ res c2, encryptText DEFAULT_CONFIG rng ctr t p = .ok (res, c2) ∧
      decryptText DEFAULT_CONFIG res p = .ok t := by
  have hne : ¬(t = [] ∨ p = []) := by tauto
  cases hE : encryptText DEFAULT_CONFIG rng ctr t p with
  | error e => simp [encryptText, if_neg hne] at hE
  | ok pr =>
    obtain ⟨res, c2⟩ := pr
    exact ⟨res, c2, rfl, decryptText_of_encryptText hE⟩

/-- Witness for C1 at a concrete plaintext, password and random stream. -/
theorem encryptText_decryptText_roundtrip_witness :
    ([104, 105] : List Nat) ≠ [] ∧ ([112, 119] : List Nat) ≠ [] ∧
    ∃ res c2, encryptText DEFAULT_CONFIG (fun i => i) 0 [104, 105] [112, 119] = .ok (res, c2) ∧
      decryptText DEFAULT_CONFIG res [112, 119] = .ok [104, 105] :=
  ⟨by decide, by decide,
    encryptText_decryptText_roundtrip (fun i => i) 0 [104, 105] [112, 119]
      (by decide) (by decide)⟩

/-- C7: salt and iv are freshly drawn from the secure random source on every
call (the first call consumes stream positions `ctr..ctr+47`, the second
`ctr+48..ctr+95`), so as long as the secure source never repeats a byte
within the window the two calls consume, two calls with identical plaintext
and password produce unequal salts and unequal ivs. -/
theorem encryptText_salt_iv_freshness (rng : Nat → Nat) (ctr : Nat)
    (t p : List Nat) (r1 r2 : EncryptionResult) (c1 c2 : Nat)
    (h1 : encryptText DEFAULT_CONFIG rng ctr t p = .ok (r1, c1))
    (h2 : encryptText DEFAULT_CONFIG rng c1 t p = .ok (r2, c2))
    (hfresh : ∀ i j, ctr ≤ i → i < ctr + 96 → ctr ≤ j → j < ctr + 96 → i ≠ j →
      rng i % 256 ≠ rng j % 256) :
    r1.salt ≠ r2.salt ∧ r1.iv ≠ r2.iv := by
  by_cases hempty : t = [] ∨ p = []
  · simp [encryptText, hempty] at h1
  · have hne : ¬(t = [] ∨ p = []) := hempty
    simp only [encryptText, if_neg hne, randomBytes, DEFAULT_CONFIG] at h1 h2
    injection h1 with h1
    injection h1 with hres1 hc1
    subst hres1
    subst hc1
    injection h2 with h2
    injection h2 with hres2 hc2
    subst hres2
    constructor
    · intro heq
      have hb := hexEncode_injective heq
      have hhead := congrArg (fun l => l[0]?) hb
      simp [List.getElem?_map, List.getElem?_range] at hhead
      exact absurd hhead (hfresh _ _ (by omega) (by omega) (by omega) (by omega) (by omega))
    · intro heq
      have hb := hexEncode_injective heq
      have hhead := congrArg (fun l => l[0]?) hb
      simp [List.getElem?_map, List.getElem?_range] at hhead
      exact absurd hhead (hfresh _ _ (by omega) (by omega) (by omega) (by omega) (by omega))

/-- Witness for C7: the identity stream reduced mod 256 never repeats inside
a 96-byte window starting at 0, and the two concrete calls indeed produce
distinct salts and ivs. -/
theorem encryptText_salt_iv_freshness_witness :
    ∃ r1 r2 c1 c2, encryptText DEFAULT_CONFIG (fun i => i) 0 [104, 105] [112, 119] = .ok (r1, c1) ∧
      encryptText DEFAULT_CONFIG (fun i => i) c1 [104, 105] [112, 119] = .ok (r2, c2) ∧
      r1.salt ≠ r2.salt ∧ r1.iv ≠ r2.iv := by
  have hE1 : ∃ r1, encryptText DEFAULT_CONFIG (fun i => i) 0 [104, 105] [112, 119] =
      .ok (r1, 48) := ⟨_, rfl⟩
  obtain ⟨r1, hE1⟩ := hE1
  have hE2 : ∃ r2, encryptText DEFAULT_CONFIG (fun i => i) 48 [104, 105] [112, 119] =
      .ok (r2, 96) := ⟨_, rfl⟩
  obtain ⟨r2, hE2⟩ := hE2
  exact ⟨r1, r2, 48, 96, hE1, hE2,
    encryptText_salt_iv_freshness (fun i => i) 0 [104, 105] [112, 119] r1 r2 48 96 hE1 hE2
      (by intro i j hi1 hi2 hj1 hj2 hij; show i % 256 ≠ j % 256; omega)⟩

/-! ## Association-list maps

The JavaScript `Map` used by the KeyManager (`this.keys`) and the
`localStorage` key/value substrate used by SecureStorage are embedded as
insertion-ordered association lists. -/

/-- `Map.get(k)` / `localStorage.getItem(k)`. -/
def mapGet {α β : Type} [DecidableEq α] : List (α × β) → α → Option β
  | [], _ => none
  | (k', v') :: rest, k => if k' = k then some v' else mapGet rest k

/-- `Map.set(k, v)` / `localStorage.setItem(k, v)`: replaces the binding in
place if the key is present, otherwise appends it. -/
def mapSet {α β : Type} [DecidableEq α] : List (α × β) → α → β → List (α × β)
  | [], k, v => [(k, v)]
  | (k', v') :: rest, k, v =>
    if k' = k then (k, v) :: rest else (k', v') :: mapSet rest k v

/-- `Map.delete(k)` / `localStorage.removeItem(k)`. -/
def mapDelete {α β : Type} [DecidableEq α] : List (α × β) → α → List (α × β)
  | [], _ => []
  | (k', v') :: rest, k =>
    if k' = k then mapDelete rest k else (k', v') :: mapDelete rest k

theorem mapGet_mapSet_self {α β : Type} [DecidableEq α]
    (l : List (α × β)) (k : α) (v : β) : mapGet (mapSet l k v) k = some v := by
  induction l with
  | nil => simp [mapSet, mapGet]
  | cons p rest ih =>
    obtain ⟨a, b⟩ := p
    by_cases h : a = k
    · simp [mapSet, mapGet, h]
    · simp [mapSet, mapGet, h, ih]

theorem mapGet_mapSet_ne {α β : Type} [DecidableEq α]
    (l : List (α × β)) (k k' : α) (v : β) (h : k' ≠ k) :
    mapGet (mapSet l k v) k' = mapGet l k' := by
  have hk : ¬k = k' := fun he => h he.symm
  induction l with
  | nil =>
    simp only [mapSet, mapGet]
    rw [if_neg hk]
  | cons p rest ih =>
    obtain ⟨a, b⟩ := p
    by_cases hp : a = k
    · subst hp
      simp only [mapSet, if_pos rfl, mapGet]
      rw [if_neg hk, if_neg hk]
    · simp only [mapSet, if_neg hp, mapGet]
      by_cases hp' : a = k'
      · rw [if_pos hp', if_pos hp']
      · rw [if_neg hp', if_neg hp', ih]

theorem mapGet_mapDelete_self {α β : Type} [DecidableEq α]
    (l : List (α × β)) (k : α) : mapGet (mapDelete l k) k = none := by
  induction l with
  | nil => simp [mapDelete, mapGet]
  | cons p rest ih =>
    obtain ⟨a, b⟩ := p
    by_cases h : a = k
    · simpa [mapDelete, h] using ih
    · simpa [mapDelete, mapGet, h] using ih

theorem mapGet_mapDelete_ne {α β : Type} [DecidableEq α]
    (l : List (α × β)) (k k' : α) (h : k' ≠ k) :
    mapGet (mapDelete l k) k' = mapGet l k' := by
  induction l with
  | nil => simp [mapDelete, mapGet]
  | cons p rest ih =>
    obtain ⟨a, b⟩ := p
    by_cases hp : a = k
    · have hp' : ¬a = k' := by rw [hp]; exact fun he => h he.symm
      simp only [mapDelete, if_pos hp, mapGet, if_neg hp']
      exact ih
    · simp only [mapDelete, if_neg hp, mapGet]
      by_cases hp' : a = k'
      · rw [if_pos hp', if_pos hp']
      · rw [if_neg hp', if_neg hp', ih]

/-! ## KeyManager (src/src/utils/encryption/keyManager.ts)

Timestamps are `Int` milliseconds (`Date.now()`); `Date` comparisons are on
those numbers. The key manager's operations thread the random stream and its
cursor explicitly and return the updated state; on an error the in-memory
state is unchanged (faithful to the source, where every mutation happens
after the last fallible step) -- except `initialize`, which mutates
`this.masterPassword` *before* its fallible probe and therefore returns its
resulting state alongside the outcome. -/

/-- `expiresAt && expiresAt < new Date()` (and the analogous guard in
SecureStorage): a missing date is falsy, a present one compares numerically. -/
def jsDateLt (d : Option Int) (now : Int) : Bool :=
  match d with
  | some e => decide (e < now)
  | none => false

/-- `expirationDays ? new Date(Date.now() + d*24*60*60*1000) : undefined`:
`0` is falsy, so zero days (or a zero-millisecond TTL) yields no expiry. -/
def jsExpiry (now : Int) : Option Int → Option Int
  | none => none
  | some d => if d = 0 then none else some (now + d * 86400000)

/-- `Math.ceil(a / b)` for integer `a` and positive integer `b`. -/
def jsCeilDiv (a b : Int) : Int :=
  -(-a / b)

theorem jsCeilDiv_bounds (a b : Int) (hb : 0 < b) :
    a ≤ jsCeilDiv a b * b ∧ jsCeilDiv a b * b < a + b := by
  unfold jsCeilDiv
  have h := Int.ediv_add_emod (-a) b
  have h1 : 0 ≤ -a % b := Int.emod_nonneg (-a) (by omega)
  have h2 : -a % b < b := Int.emod_lt_of_pos (-a) hb
  constructor <;> nlinarith [h, h1, h2]

inductive KeyType
  | symmetric
  | asymmetric
deriving DecidableEq

/-- The `algorithm` string of a `StoredKey`: `'AES-256'` or `'RSA-${keySize}'`.
`parseInt(algorithm.split('-')[1])` recovers the numeric component. -/
inductive KeyAlgorithm
  | aes256
  | rsa (keySize : Nat)
deriving DecidableEq

/-- `parseInt(oldKey.algorithm.split('-')[1])` in `rotateKey`. -/
def algKeySize : KeyAlgorithm → Nat
  | .aes256 => 256
  | .rsa n => n

inductive Permission
  | encrypt
  | decrypt
  | sign
deriving DecidableEq

structure KeyMetadata where
  purpose : List Nat
  owner : List Nat
  permissions : List Permission
deriving DecidableEq

/-- `key_${Date.now()}_${random}` identifiers. -/
structure KeyId where
  time : Int
  rand : Nat
deriving DecidableEq

/-- `StoredKey`; `keyData` holds `JSON.stringify` of an `EncryptionResult`
of the raw key material (the JSON round trip is the identity, so the
envelope is stored directly). -/
structure StoredKey where
  id : KeyId
  name : List Nat
  type : KeyType
  algorithm : KeyAlgorithm
  keyData : EncryptionResult
  publicKey : Option (List Nat)
  createdAt : Int
  expiresAt : Option Int
  metadata : KeyMetadata
deriving DecidableEq

/-- In-memory state of a `KeyManager` instance: the key index and the
session master password (`null` in the Uninitialized state). -/
structure KMState where
  keys : List (KeyId × StoredKey)
  masterPassword : Option (List Nat)
deriving DecidableEq

inductive KMError
  | policyViolation
  | invalidMasterPassword
  | notInitialized
  | keyNotFound
  | keyExpired
  | notAsymmetricKey
  | decryptionFailed
  | encryptionFailed
  | invalidExportFormat
deriving DecidableEq

/-- `generateKeyId()`: a timestamp combined with fresh randomness. -/
def generateKeyId (now : Int) (rng : Nat → Nat) (ctr : Nat) : KeyId × Nat :=
  (⟨now, rng ctr⟩, ctr + 1)

/-- `CryptoEngine.generateSecureKey(length)`: `length` random bytes as a hex
string. -/
def generateSecureKey (rng : Nat → Nat) (ctr : Nat) (length : Nat) : List Nat × Nat :=
  (hexEncode (randomBytes rng ctr length).1, (randomBytes rng ctr length).2)

/-- Models Node's `generateKeyPair('rsa', ...)`: a PEM public/private pair of
opaque non-empty blobs incorporating fresh randomness. -/
def generateRsaKeyPair (rng : Nat → Nat) (ctr : Nat) (keySize : Nat) :
    (List Nat × List Nat) × Nat :=
  ((keySize :: (randomBytes rng ctr 8).1, (keySize + 1) :: (randomBytes rng (ctr + 8) 8).1),
    ctr + 16)

/-- `validateMasterPassword`: at least 12 characters and all four character
classes (upper, lower, digit, special). -/
def validateMasterPassword (pw : List Nat) : Except KMError Unit :=
  if pw = [] ∨ pw.length < 12 then .error .policyViolation
  else if pw.any (fun c => 65 ≤ c && c ≤ 90) &&
          pw.any (fun c => 97 ≤ c && c ≤ 122) &&
          pw.any (fun c => 48 ≤ c && c ≤ 57) &&
          pw.any (fun c => ([33, 64, 35, 36, 37, 94, 38, 42, 40, 41, 44, 46, 63, 34,
            58, 123, 125, 124, 60, 62] : List Nat).contains c) then .ok ()
  else .error .policyViolation

/-- `ensureInitialized()`: fails with NotInitialized while no master
password is set. -/
def ensureInitialized (st : KMState) : Except KMError Unit :=
  match st.masterPassword with
  | none => .error .notInitialized
  | some _ => .ok ()

/-- `verifyMasterPassword()`: nothing to probe when no keys exist; otherwise
decrypt the first key's `keyData` under the session master password, and
surface any failure as InvalidMasterPassword. -/
def verifyMasterPassword (st : KMState) : Except KMError Unit :=
  match st.keys with
  | [] => .ok ()
  | (_, firstKey) :: _ =>
    match st.masterPassword with
    | none => .error .invalidMasterPassword
    | some mp =>
      match decryptText DEFAULT_CONFIG firstKey.keyData mp with
      | .ok _ => .ok ()
      | .error _ => .error .invalidMasterPassword

/-- `KeyManager.initialize(masterPassword)` (keyManager.ts lines 42-59):
validate the password policy, assign `this.masterPassword`, then probe-decrypt
an existing key. The catch block only logs and rethrows, so the assigned
master password survives a failed probe. -/
def initializeKeyManager (st : KMState) (mp : List Nat) : Except KMError Unit × KMState :=
  match validateMasterPassword mp with
  | .error e => (.error e, st)
  | .ok () =>
    let st1 : KMState := { st with masterPassword := some mp }
    match verifyMasterPassword st1 with
    | .ok () => (.ok (), st1)
    | .error e => (.error e, st1)

/-- `KeyManager.generateSymmetricKey(name, purpose, owner, expirationDays?)`
(keyManager.ts lines 64-117). -/
def KeyManager.generateSymmetricKey (st : KMState) (rng : Nat → Nat) (ctr : Nat) (now : Int)
    (name purpose owner : List Nat) (expirationDays : Option Int) :
    Except KMError (KeyId × KMState × Nat) :=
  match st.masterPassword with
  | none => .error .notInitialized
  | some mp =>
    let keyId := (generateKeyId now rng ctr).1
    let c1 := (generateKeyId now rng ctr).2
    let keyData := (generateSecureKey rng c1 32).1
    let c2 := (generateSecureKey rng c1 32).2
    match encryptText DEFAULT_CONFIG rng c2 keyData mp with
    | .error _ => .error .encryptionFailed
    | .ok (encryptedKey, c3) =>
      let storedKey : StoredKey := {
        id := keyId, name := name, type := .symmetric, algorithm := .aes256,
        keyData := encryptedKey, publicKey := none, createdAt := now,
        expiresAt := jsExpiry now expirationDays,
        metadata := { purpose := purpose, owner := owner,
                      permissions := [.encrypt, .decrypt] } }
      .ok (keyId, { st with keys := mapSet st.keys keyId storedKey }, c3)

/-- `KeyManager.generateAsymmetricKeyPair(name, purpose, owner, keySize,
expirationDays?)` (keyManager.ts lines 122-181): only the private key is
encrypted; the public key is stored in the clear. -/
def KeyManager.generateAsymmetricKeyPair (st : KMState) (rng : Nat → Nat) (ctr : Nat)
    (now : Int) (name purpose owner : List Nat) (keySize : Nat)
    (expirationDays : Option Int) : Except KMError (KeyId × KMState × Nat) :=
  match st.masterPassword with
  | none => .error .notInitialized
  | some mp =>
    let keyId := (generateKeyId now rng ctr).1
    let c1 := (generateKeyId now rng ctr).2
    let keyPair := (generateRsaKeyPair rng c1 keySize).1
    let c2 := (generateRsaKeyPair rng c1 keySize).2
    match encryptText DEFAULT_CONFIG rng c2 keyPair.2 mp with
    | .error _ => .error .encryptionFailed
    | .ok (encryptedPrivateKey, c3) =>
      let storedKey : StoredKey := {
        id := keyId, name := name, type := .asymmetric, algorithm := .rsa keySize,
        keyData := encryptedPrivateKey, publicKey := some keyPair.1, createdAt := now,
        expiresAt := jsExpiry now expirationDays,
        metadata := { purpose := purpose, owner := owner,
                      permissions := [.sign, .decrypt] } }
      .ok (keyId, { st with keys := mapSet st.keys keyId storedKey }, c3)

/-- `KeyManager.getKey(keyId)` (keyManager.ts lines 186-218): absent id
fails with KeyNotFound; `expiresAt < new Date()` (strict) fails with
KeyExpired; otherwise the stored envelope is decrypted under the master
password. -/
def KeyManager.getKey (st : KMState) (now : Int) (keyId : KeyId) :
    Except KMError (List Nat) :=
  match st.masterPassword with
  | none => .error .notInitialized
  | some mp =>
    match mapGet st.keys keyId with
    | none => .error .keyNotFound
    | some storedKey =>
      if jsDateLt storedKey.expiresAt now then .error .keyExpired
      else
        match decryptText DEFAULT_CONFIG storedKey.keyData mp with
        | .ok decryptedKey => .ok decryptedKey
        | .error _ => .error .decryptionFailed

/-- `KeyManager.getPublicKey(keyId)` (keyManager.ts lines 223-247): looks
the key up with no initialization check; a non-asymmetric key or a missing
(falsy) public key fails. -/
def KeyManager.getPublicKey (st : KMState) (keyId : KeyId) : Except KMError (List Nat) :=
  match mapGet st.keys keyId with
  | none => .error .keyNotFound
  | some storedKey =>
    match storedKey.type, storedKey.publicKey with
    | .asymmetric, some pk => if pk = [] then .error .notAsymmetricKey else .ok pk
    | _, _ => .error .notAsymmetricKey

/-- Entry of `listKeys()`: a `StoredKey` with the `keyData` field stripped. -/
structure KeyInfo where
  id : KeyId
  name : List Nat
  type : KeyType
  algorithm : KeyAlgorithm
  publicKey : Option (List Nat)
  createdAt : Int
  expiresAt : Option Int
  metadata : KeyMetadata
deriving DecidableEq

/-- `KeyManager.listKeys()` (keyManager.ts lines 252-263): total, with no
initialization check. -/
def KeyManager.listKeys (st : KMState) : List KeyInfo :=
  st.keys.map (fun p => {
    id := p.2.id, name := p.2.name, type := p.2.type, algorithm := p.2.algorithm,
    publicKey := p.2.publicKey, createdAt := p.2.createdAt, expiresAt := p.2.expiresAt,
    metadata := p.2.metadata })

/-- `KeyManager.deleteKey(keyId)` (keyManager.ts lines 268-292). -/
def KeyManager.deleteKey (st : KMState) (keyId : KeyId) : Except KMError KMState :=
  match st.masterPassword with
  | none => .error .notInitialized
  | some _ =>
    match mapGet st.keys keyId with
    | none => .error .keyNotFound
    | some _ => .ok { st with keys := mapDelete st.keys keyId }

/-- `KeyManager.rotateKey(keyId)` (keyManager.ts lines 297-343): regenerate
under the old name/purpose/owner with `Math.ceil` of the remaining days to
expiry (recomputed from the old `expiresAt`), then delete the old key. -/
def KeyManager.rotateKey (st : KMState) (rng : Nat → Nat) (ctr : Nat) (now : Int)
    (keyId : KeyId) : Except KMError (KeyId × KMState × Nat) :=
  match st.masterPassword with
  | none => .error .notInitialized
  | some _ =>
    match mapGet st.keys keyId with
    | none => .error .keyNotFound
    | some oldKey =>
      let newDays : Option Int := oldKey.expiresAt.map (fun e => jsCeilDiv (e - now) 86400000)
      let gen : Except KMError (KeyId × KMState × Nat) :=
        match oldKey.type with
        | .symmetric =>
          KeyManager.generateSymmetricKey st rng ctr now oldKey.name
            oldKey.metadata.purpose oldKey.metadata.owner newDays
        | .asymmetric =>
          KeyManager.generateAsymmetricKeyPair st rng ctr now oldKey.name
            oldKey.metadata.purpose oldKey.metadata.owner (algKeySize oldKey.algorithm) newDays
      match gen with
      | .error e => .error e
      | .ok (newKeyId, st1, c1) =>
        match KeyManager.deleteKey st1 keyId with
        | .error e => .error e
        | .ok st2 => .ok (newKeyId, st2, c1)

/-- `KeyManager.getExpiringKeys(daysAhead = 30)` (keyManager.ts lines
348-354): keys with an `expiresAt` that is strictly in the future and at
most `daysAhead` days away. -/
def KeyManager.getExpiringKeys (st : KMState) (now : Int) (daysAhead : Int) :
    List StoredKey :=
  let cutoffDate := now + daysAhead * 86400000
  (st.keys.map Prod.snd).filter (fun key =>
    match key.expiresAt with
    | some e => decide (e ≤ cutoffDate) && decide (now < e)
    | none => false)

/-- The versioned export envelope of `exportKeys()` (`{version, exportedAt,
keys}`). -/
structure KeyExport where
  version : List Nat
  exportedAt : Int
  keys : List StoredKey
deriving DecidableEq

/-- `KeyManager.exportKeys()` (keyManager.ts lines 359-382); version `'1.0'`. -/
def KeyManager.exportKeys (st : KMState) (now : Int) : Except KMError KeyExport :=
  match st.masterPassword with
  | none => .error .notInitialized
  | some _ => .ok { version := [49, 46, 48], exportedAt := now, keys := st.keys.map Prod.snd }

/-- `KeyManager.importKeys(exportData)` (keyManager.ts lines 387-417):
additive import that skips ids already present. -/
def KeyManager.importKeys (st : KMState) (data : KeyExport) : Except KMError KMState :=
  match st.masterPassword with
  | none => .error .notInitialized
  | some _ =>
    if data.version = [] then .error .invalidExportFormat
    else
      .ok { st with keys := data.keys.foldl (fun ks k =>
        if (mapGet ks k.id).isSome then ks else mapSet ks k.id k) st.keys }

/-- C4 (amended): the key-manager operations that call `ensureInitialized`
(or guard on the master password) -- getKey, generateSymmetricKey,
generateAsymmetricKeyPair, deleteKey, rotateKey, exportKeys, importKeys --
all fail with NotInitialized in the Uninitialized state. (`getPublicKey`
and `listKeys` perform no initialization check, see the counterexample.) -/
theorem ops_require_initialization (st : KMState) (rng : Nat → Nat) (ctr : Nat) (now : Int)
    (keyId : KeyId) (name purpose owner : List Nat) (days : Option Int) (keySize : Nat)
    (data : KeyExport) (h : st.masterPassword = none) :
    KeyManager.getKey st now keyId = .error .notInitialized ∧
    KeyManager.generateSymmetricKey st rng ctr now name purpose owner days =
      .error .notInitialized ∧
    KeyManager.generateAsymmetricKeyPair st rng ctr now name purpose owner keySize days =
      .error .notInitialized ∧
    KeyManager.deleteKey st keyId = .error .notInitialized ∧
    KeyManager.rotateKey st rng ctr now keyId = .error .notInitialized ∧
    KeyManager.exportKeys st now = .error .notInitialized ∧
    KeyManager.importKeys st data = .error .notInitialized := by
  simp [KeyManager.getKey, KeyManager.generateSymmetricKey,
    KeyManager.generateAsymmetricKeyPair, KeyManager.deleteKey, KeyManager.rotateKey,
    KeyManager.exportKeys, KeyManager.importKeys, h]

/-- A concrete empty uninitialized key-manager state. -/
def emptyUninit : KMState := { keys := [], masterPassword := none }

/-- A concrete export envelope (version `'1.0'`, no keys). -/
def demoExport : KeyExport := { version := [49, 46, 48], exportedAt := 0, keys := [] }

/-- Witness for C4's amended theorem on the concrete empty uninitialized
state. -/
theorem ops_require_initialization_witness :
    emptyUninit.masterPassword = none ∧
    (KeyManager.getKey emptyUninit 0 ⟨0, 0⟩ = .error .notInitialized ∧
     KeyManager.generateSymmetricKey emptyUninit (fun i => i) 0 0 [] [] [] none =
       .error .notInitialized ∧
     KeyManager.generateAsymmetricKeyPair emptyUninit (fun i => i) 0 0 [] [] [] 2048 none =
       .error .notInitialized ∧
     KeyManager.deleteKey emptyUninit ⟨0, 0⟩ = .error .notInitialized ∧
     KeyManager.rotateKey emptyUninit (fun i => i) 0 0 ⟨0, 0⟩ = .error .notInitialized ∧
     KeyManager.exportKeys emptyUninit 0 = .error .notInitialized ∧
     KeyManager.importKeys emptyUninit demoExport = .error .notInitialized) :=
  ⟨rfl, ops_require_initialization emptyUninit (fun i => i) 0 0 ⟨0, 0⟩ [] [] [] none 2048
    demoExport rfl⟩

/-- The clear public key of the concrete asymmetric key used below
(`'PUBKEY'`). -/
def c4PubKey : List Nat := [80, 85, 66, 75, 69, 89]

/-- A concrete stored asymmetric key. -/
def c4Key : StoredKey := {
  id := ⟨1, 1⟩, name := [107], type := .asymmetric, algorithm := .rsa 2048,
  keyData := { encryptedData := [0], iv := [], salt := [], tag := none },
  publicKey := some c4PubKey, createdAt := 0, expiresAt := none,
  metadata := { purpose := [], owner := [], permissions := [.sign, .decrypt] } }

/-- An uninitialized key-manager state that nevertheless holds a key. -/
def c4State : KMState := { keys := [(⟨1, 1⟩, c4Key)], masterPassword := none }

/-- C4 counterexample: `getPublicKey` is an operation other than initialize,
yet on an uninitialized key manager it succeeds (it performs no
initialization check), so it does not fail with NotInitialized. -/
theorem getPublicKey_succeeds_uninitialized :
    c4State.masterPassword = none ∧
    KeyManager.getPublicKey c4State ⟨1, 1⟩ = .ok c4PubKey :=
  ⟨rfl, rfl⟩

/-- C9: `getExpiringKeys(daysAhead)` returns exactly the stored keys that
have an `expiresAt`, whose `expiresAt` is strictly in the future, and whose
`expiresAt` is at most `daysAhead` days (in milliseconds) away. -/
theorem getExpiringKeys_characterization (st : KMState) (now daysAhead : Int)
    (k : StoredKey) :
    k ∈ KeyManager.getExpiringKeys st now daysAhead ↔
      k ∈ st.keys.map Prod.snd ∧
        ∃ e, k.expiresAt = some e ∧ now < e ∧ e ≤ now + daysAhead * 86400000 := by
  simp only [KeyManager.getExpiringKeys]
  rw [List.mem_filter]
  constructor
  · rintro ⟨hmem, hcond⟩
    refine ⟨hmem, ?_⟩
    cases hke : k.expiresAt with
    | none => rw [hke] at hcond; simp at hcond
    | some e =>
      rw [hke] at hcond
      simp at hcond
      exact ⟨e, rfl, hcond.2, hcond.1⟩
  · rintro ⟨hmem, e, hke, h1, h2⟩
    refine ⟨hmem, ?_⟩
    rw [hke]
    simp [h1, h2]

/-- C5: with an initialized key manager, `getKey` fails with KeyNotFound on
an absent id; fails with KeyExpired exactly when the key's `expiresAt` is
strictly below the current time (so a key expiring at the current instant is
still returned); and otherwise returns exactly what decrypting the stored
`keyData` under the master password yields. -/
theorem getKey_characterization (st : KMState) (mp : List Nat) (now : Int) (keyId : KeyId)
    (hinit : st.masterPassword = some mp) :
    (mapGet st.keys keyId = none → KeyManager.getKey st now keyId = .error .keyNotFound) ∧
    (∀ k, mapGet st.keys keyId = some k →
      ((∃ e, k.expiresAt = some e ∧ e < now) →
        KeyManager.getKey st now keyId = .error .keyExpired) ∧
      (KeyManager.getKey st now keyId = .error .keyExpired →
        ∃ e, k.expiresAt = some e ∧ e < now) ∧
      ((∀ e, k.expiresAt = some e → now ≤ e) →
        ∀ d, decryptText DEFAULT_CONFIG k.keyData mp = .ok d →
          KeyManager.getKey st now keyId = .ok d)) := by
  constructor
  · intro hnone
    simp [KeyManager.getKey, hinit, hnone]
  · intro k hk
    refine ⟨?_, ?_, ?_⟩
    · rintro ⟨e, hke, helt⟩
      simp [KeyManager.getKey, hinit, hk, jsDateLt, hke, helt]
    · intro hres
      by_cases hlt : jsDateLt k.expiresAt now = true
      · cases hke : k.expiresAt with
        | none => rw [hke] at hlt; simp [jsDateLt] at hlt
        | some e =>
          rw [hke] at hlt
          simp [jsDateLt] at hlt
          exact ⟨e, rfl, hlt⟩
      · exfalso
        simp only [KeyManager.getKey, hinit, hk, if_neg hlt] at hres
        cases hd : decryptText DEFAULT_CONFIG k.keyData mp with
        | ok d => rw [hd] at hres; simp at hres
        | error e2 => rw [hd] at hres; simp at hres
    · intro hnot d hd
      have hlt : jsDateLt k.expiresAt now = false := by
        cases hke : k.expiresAt with
        | none => rfl
        | some e =>
          have := hnot e hke
          simp [jsDateLt]
          omega
      simp [KeyManager.getKey, hinit, hk, hlt, hd]

/-- `'Str0ng!Pass1234'`: a policy-conformant master password. -/
def goodMp : List Nat := [83, 116, 114, 48, 110, 103, 33, 80, 97, 115, 115, 49, 50, 51, 52]

/-- `'Wr0ng!Password99'`: policy-conformant but different from `goodMp`. -/
def badMp : List Nat := [87, 114, 48, 110, 103, 33, 80, 97, 115, 115, 119, 111, 114, 100, 57, 57]

/-- A concrete random byte stream for the demonstration states. -/
def demoRng : Nat → Nat := fun i => (i * 37 + 11) % 256

/-- `'deadbeef'`: the raw key material of the demonstration key. -/
def demoKeyMaterial : List Nat := [100, 101, 97, 100, 98, 101, 101, 102]

/-- The demonstration key's `keyData`: the envelope produced by encrypting
`demoKeyMaterial` under `goodMp`. -/
def demoKeyData : EncryptionResult :=
  match encryptText DEFAULT_CONFIG demoRng 0 demoKeyMaterial goodMp with
  | .ok (r, _) => r
  | .error _ => { encryptedData := [], iv := [], salt := [], tag := none }

def demoKeyId : KeyId := ⟨1700000000000, 5⟩

/-- A stored symmetric key named `'invoice-key'` whose key material is
encrypted under `goodMp`. -/
def demoStoredKey : StoredKey := {
  id := demoKeyId, name := [105, 110, 118, 111, 105, 99, 101, 45, 107, 101, 121],
  type := .symmetric, algorithm := .aes256, keyData := demoKeyData, publicKey := none,
  createdAt := 0, expiresAt := none,
  metadata := { purpose := [98, 105, 108, 108, 105, 110, 103],
                owner := [97, 100, 109, 105, 110],
                permissions := [.encrypt, .decrypt] } }

/-- An uninitialized key manager whose persisted index already holds a key
encrypted under `goodMp`. -/
def c3State : KMState := { keys := [(demoKeyId, demoStoredKey)], masterPassword := none }

/-- The same index in the Initialized state under `goodMp`. -/
def c5State : KMState := { keys := [(demoKeyId, demoStoredKey)], masterPassword := some goodMp }

set_option maxRecDepth 100000 in
/-- C3 (divergence demonstration): calling initialize on `c3State` with the
wrong (policy-conformant) master password makes the probe fail and surfaces
InvalidMasterPassword -- but `this.masterPassword` was assigned before the
probe and the catch block does not clear it, so the manager does NOT remain
Uninitialized: `ensureInitialized` passes and an operation requiring
initialization (exportKeys) succeeds instead of failing with NotInitialized. -/
theorem initialize_failure_leaves_master_password_set :
    (initializeKeyManager c3State badMp).1 = .error .invalidMasterPassword ∧
    (initializeKeyManager c3State badMp).2.masterPassword = some badMp ∧
    ensureInitialized (initializeKeyManager c3State badMp).2 = .ok () ∧
    KeyManager.exportKeys (initializeKeyManager c3State badMp).2 0 =
      .ok { version := [49, 46, 48], exportedAt := 0, keys := [demoStoredKey] } :=
  ⟨rfl, rfl, rfl, rfl⟩

/-- Witness for C5 on the concrete initialized state `c5State`. -/
theorem getKey_characterization_witness :
    c5State.masterPassword = some goodMp ∧
    ((mapGet c5State.keys demoKeyId = none →
        KeyManager.getKey c5State 0 demoKeyId = .error .keyNotFound) ∧
     (∀ k, mapGet c5State.keys demoKeyId = some k →
       ((∃ e, k.expiresAt = some e ∧ e < 0) →
         KeyManager.getKey c5State 0 demoKeyId = .error .keyExpired) ∧
       (KeyManager.getKey c5State 0 demoKeyId = .error .keyExpired →
         ∃ e, k.expiresAt = some e ∧ e < 0) ∧
       ((∀ e, k.expiresAt = some e → 0 ≤ e) →
         ∀ d, decryptText DEFAULT_CONFIG k.keyData goodMp = .ok d →
           KeyManager.getKey c5State 0 demoKeyId = .ok d))) :=
  ⟨rfl, getKey_characterization c5State goodMp 0 demoKeyId rfl⟩

/-- The `StoredKey` assembled by a successful `generateSymmetricKey` call. -/
def symStoredKey (newId : KeyId) (name purpose owner : List Nat)
    (encKey : EncryptionResult) (now : Int) (expiresAt : Option Int) : StoredKey :=
  { id := newId, name := name, type := .symmetric, algorithm := .aes256,
    keyData := encKey, publicKey := none, createdAt := now, expiresAt := expiresAt,
    metadata := { purpose := purpose, owner := owner,
                  permissions := [.encrypt, .decrypt] } }

/-- The `StoredKey` assembled by a successful `generateAsymmetricKeyPair` call. -/
def asymStoredKey (newId : KeyId) (name purpose owner : List Nat) (keySize : Nat)
    (encKey : EncryptionResult) (pub : List Nat) (now : Int)
    (expiresAt : Option Int) : StoredKey :=
  { id := newId, name := name, type := .asymmetric, algorithm := .rsa keySize,
    keyData := encKey, publicKey := some pub, createdAt := now, expiresAt := expiresAt,
    metadata := { purpose := purpose, owner := owner,
                  permissions := [.sign, .decrypt] } }

/-- A successful `generateSymmetricKey` call returns the fresh key id and
stores a symmetric `StoredKey` carrying the given name, purpose, owner and
the computed expiry. -/
theorem generateSymmetricKey_ok (st : KMState) (mp : List Nat) (rng : Nat → Nat) (ctr : Nat)
    (now : Int) (name purpose owner : List Nat) (days : Option Int)
    (hinit : st.masterPassword = some mp) (hmp : mp ≠ []) :
    ∃ encKey c3, KeyManager.generateSymmetricKey st rng ctr now name purpose owner days =
      .ok (⟨now, rng ctr⟩,
        ⟨mapSet st.keys ⟨now, rng ctr⟩
          (symStoredKey ⟨now, rng ctr⟩ name purpose owner encKey now (jsExpiry now days)),
         st.masterPassword⟩, c3) := by
  have hkd : (generateSecureKey rng (generateKeyId now rng ctr).2 32).1 ≠ [] := by
    simp only [generateSecureKey]
    apply hexEncode_ne_nil
    simp [randomBytes]
  have henc : ¬((generateSecureKey rng (generateKeyId now rng ctr).2 32).1 = [] ∨
      mp = []) := by
    rintro (h | h)
    · exact hkd h
    · exact hmp h
  cases hE : encryptText DEFAULT_CONFIG rng ((generateSecureKey rng (generateKeyId now rng ctr).2 32).2)
      ((generateSecureKey rng (generateKeyId now rng ctr).2 32).1) mp with
  | error e => simp [encryptText, if_neg henc] at hE
  | ok pr =>
    obtain ⟨encKey, c3⟩ := pr
    simp only [generateKeyId] at hE
    refine ⟨encKey, c3, ?_⟩
    simp only [KeyManager.generateSymmetricKey, generateKeyId, hinit, hE, symStoredKey]

/-- A successful `generateAsymmetricKeyPair` call returns the fresh key id
and stores an asymmetric `StoredKey` with the clear public key and the
encrypted private key. -/
theorem generateAsymmetricKeyPair_ok (st : KMState) (mp : List Nat) (rng : Nat → Nat)
    (ctr : Nat) (now : Int) (name purpose owner : List Nat) (keySize : Nat)
    (days : Option Int) (hinit : st.masterPassword = some mp) (hmp : mp ≠ []) :
    ∃ encKey c3,
      KeyManager.generateAsymmetricKeyPair st rng ctr now name purpose owner keySize days =
      .ok (⟨now, rng ctr⟩,
        ⟨mapSet st.keys ⟨now, rng ctr⟩
          (asymStoredKey ⟨now, rng ctr⟩ name purpose owner keySize encKey
            (generateRsaKeyPair rng (generateKeyId now rng ctr).2 keySize).1.1 now
            (jsExpiry now days)),
         st.masterPassword⟩, c3) := by
  have hpriv : (generateRsaKeyPair rng (generateKeyId now rng ctr).2 keySize).1.2 ≠ [] := by
    simp [generateRsaKeyPair]
  have henc : ¬((generateRsaKeyPair rng (generateKeyId now rng ctr).2 keySize).1.2 = [] ∨
      mp = []) := by
    rintro (h | h)
    · exact hpriv h
    · exact hmp h
  cases hE : encryptText DEFAULT_CONFIG rng ((generateRsaKeyPair rng (generateKeyId now rng ctr).2 keySize).2)
      ((generateRsaKeyPair rng (generateKeyId now rng ctr).2 keySize).1.2) mp with
  | error e => simp [encryptText, if_neg henc] at hE
  | ok pr =>
    obtain ⟨encKey, c3⟩ := pr
    simp only [generateKeyId] at hE
    refine ⟨encKey, c3, ?_⟩
    simp only [KeyManager.generateAsymmetricKeyPair, generateKeyId, hinit, hE, asymStoredKey]

/-- C6: rotating an existing unexpired key returns a fresh id whose stored
key carries over the old key's name, type, purpose and owner; its expiry is
recomputed from the old key's `expiresAt` (now plus the ceiling of the
remaining days in milliseconds -- at least the old remaining time and less
than one day more, not a fresh full window); and the old id is gone: its
lookup is empty and `getKey` on it fails with KeyNotFound. -/
theorem rotateKey_carryover (st : KMState) (mp : List Nat) (rng : Nat → Nat) (ctr : Nat)
    (now : Int) (keyId : KeyId) (oldKey : StoredKey) (e : Int)
    (hinit : st.masterPassword = some mp) (hmp : mp ≠ [])
    (hold : mapGet st.keys keyId = some oldKey)
    (hexp : oldKey.expiresAt = some e) (hrem : now < e)
    (hfresh : (⟨now, rng ctr⟩ : KeyId) ≠ keyId) :
    ∃ st2 c3 newKey,
      KeyManager.rotateKey st rng ctr now keyId = .ok (⟨now, rng ctr⟩, st2, c3) ∧
      mapGet st2.keys ⟨now, rng ctr⟩ = some newKey ∧
      newKey.name = oldKey.name ∧
      newKey.type = oldKey.type ∧
      newKey.metadata.purpose = oldKey.metadata.purpose ∧
      newKey.metadata.owner = oldKey.metadata.owner ∧
      newKey.expiresAt = some (now + jsCeilDiv (e - now) 86400000 * 86400000) ∧
      e ≤ now + jsCeilDiv (e - now) 86400000 * 86400000 ∧
      now + jsCeilDiv (e - now) 86400000 * 86400000 < e + 86400000 ∧
      mapGet st2.keys keyId = none ∧
      KeyManager.getKey st2 now keyId = .error .keyNotFound := by
  have hb := jsCeilDiv_bounds (e - now) 86400000 (by omega)
  obtain ⟨hb1, hb2⟩ := hb
  have hdpos : 0 < jsCeilDiv (e - now) 86400000 := by nlinarith [hb1]
  have hdne : jsCeilDiv (e - now) 86400000 ≠ 0 := by omega
  have hjs : jsExpiry now (some (jsCeilDiv (e - now) 86400000)) =
      some (now + jsCeilDiv (e - now) 86400000 * 86400000) := by
    simp [jsExpiry, hdne]
  cases htype : oldKey.type with
  | symmetric =>
    obtain ⟨encKey, c3, hgen⟩ := generateSymmetricKey_ok st mp rng ctr now oldKey.name
      oldKey.metadata.purpose oldKey.metadata.owner
      (some (jsCeilDiv (e - now) 86400000)) hinit hmp
    set nk := symStoredKey ⟨now, rng ctr⟩ oldKey.name oldKey.metadata.purpose
      oldKey.metadata.owner encKey now
      (jsExpiry now (some (jsCeilDiv (e - now) 86400000))) with hnk
    have hdel : KeyManager.deleteKey
        (⟨mapSet st.keys ⟨now, rng ctr⟩ nk, some mp⟩ : KMState) keyId =
        .ok ⟨mapDelete (mapSet st.keys ⟨now, rng ctr⟩ nk) keyId, some mp⟩ := by
      simp only [KeyManager.deleteKey,
        mapGet_mapSet_ne st.keys (⟨now, rng ctr⟩ : KeyId) keyId nk (Ne.symm hfresh), hold]
    have hrot : KeyManager.rotateKey st rng ctr now keyId = .ok (⟨now, rng ctr⟩,
        ⟨mapDelete (mapSet st.keys ⟨now, rng ctr⟩ nk) keyId, some mp⟩, c3) := by
      simp only [KeyManager.rotateKey, hinit, hold, hexp, Option.map_some', htype, hgen, hdel]
    refine ⟨⟨mapDelete (mapSet st.keys ⟨now, rng ctr⟩ nk) keyId, some mp⟩, c3, nk,
      hrot, ?_, ?_, ?_, ?_, ?_, ?_, ?_, ?_, ?_, ?_⟩
    · show mapGet (mapDelete (mapSet st.keys ⟨now, rng ctr⟩ nk) keyId) ⟨now, rng ctr⟩ = some nk
      rw [mapGet_mapDelete_ne _ keyId _ hfresh, mapGet_mapSet_self]
    · rw [hnk]
      simp only [symStoredKey]
    · rw [hnk]
      simp only [symStoredKey]
    · rw [hnk]
      simp only [symStoredKey]
    · rw [hnk]
      simp only [symStoredKey]
    · rw [hnk]
      simp only [symStoredKey, hjs]
    · omega
    · omega
    · exact mapGet_mapDelete_self _ keyId
    · simp only [KeyManager.getKey, mapGet_mapDelete_self]
  | asymmetric =>
    obtain ⟨encKey, c3, hgen⟩ := generateAsymmetricKeyPair_ok st mp rng ctr now oldKey.name
      oldKey.metadata.purpose oldKey.metadata.owner (algKeySize oldKey.algorithm)
      (some (jsCeilDiv (e - now) 86400000)) hinit hmp
    set nk := asymStoredKey ⟨now, rng ctr⟩ oldKey.name oldKey.metadata.purpose
      oldKey.metadata.owner (algKeySize oldKey.algorithm) encKey
      (generateRsaKeyPair rng (generateKeyId now rng ctr).2 (algKeySize oldKey.algorithm)).1.1
      now (jsExpiry now (some (jsCeilDiv (e - now) 86400000))) with hnk
    have hdel : KeyManager.deleteKey
        (⟨mapSet st.keys ⟨now, rng ctr⟩ nk, some mp⟩ : KMState) keyId =
        .ok ⟨mapDelete (mapSet st.keys ⟨now, rng ctr⟩ nk) keyId, some mp⟩ := by
      simp only [KeyManager.deleteKey,
        mapGet_mapSet_ne st.keys (⟨now, rng ctr⟩ : KeyId) keyId nk (Ne.symm hfresh), hold]
    have hrot : KeyManager.rotateKey st rng ctr now keyId = .ok (⟨now, rng ctr⟩,
        ⟨mapDelete (mapSet st.keys ⟨now, rng ctr⟩ nk) keyId, some mp⟩, c3) := by
      simp only [KeyManager.rotateKey, hinit, hold, hexp, Option.map_some', htype, hgen, hdel]
    refine ⟨⟨mapDelete (mapSet st.keys ⟨now, rng ctr⟩ nk) keyId, some mp⟩, c3, nk,
      hrot, ?_, ?_, ?_, ?_, ?_, ?_, ?_, ?_, ?_, ?_⟩
    · show mapGet (mapDelete (mapSet st.keys ⟨now, rng ctr⟩ nk) keyId) ⟨now, rng ctr⟩ = some nk
      rw [mapGet_mapDelete_ne _ keyId _ hfresh, mapGet_mapSet_self]
    · rw [hnk]
      simp only [asymStoredKey]
    · rw [hnk]
      simp only [asymStoredKey]
    · rw [hnk]
      simp only [asymStoredKey]
    · rw [hnk]
      simp only [asymStoredKey]
    · rw [hnk]
      simp only [asymStoredKey, hjs]
    · omega
    · omega
    · exact mapGet_mapDelete_self _ keyId
    · simp only [KeyManager.getKey, mapGet_mapDelete_self]

/-- The demonstration key with 10 days (864,000,000 ms) left to expiry. -/
def c6ExpiringKey : StoredKey := { demoStoredKey with expiresAt := some 864000000 }

/-- An initialized key manager holding the expiring demonstration key. -/
def c6State : KMState := { keys := [(demoKeyId, c6ExpiringKey)], masterPassword := some goodMp }

/-- Witness for C6: rotating the concrete key with 10 days remaining at time
0 produces a new key expiring exactly 10 days out, and the old id is gone. -/
theorem rotateKey_carryover_witness :
    c6State.masterPassword = some goodMp ∧ goodMp ≠ [] ∧
    mapGet c6State.keys demoKeyId = some c6ExpiringKey ∧
    c6ExpiringKey.expiresAt = some 864000000 ∧ (0 : Int) < 864000000 ∧
    (⟨0, demoRng 100⟩ : KeyId) ≠ demoKeyId ∧
    (∃ st2 c3 newKey,
      KeyManager.rotateKey c6State demoRng 100 0 demoKeyId =
        .ok (⟨0, demoRng 100⟩, st2, c3) ∧
      mapGet st2.keys ⟨0, demoRng 100⟩ = some newKey ∧
      newKey.name = c6ExpiringKey.name ∧
      newKey.type = c6ExpiringKey.type ∧
      newKey.metadata.purpose = c6ExpiringKey.metadata.purpose ∧
      newKey.metadata.owner = c6ExpiringKey.metadata.owner ∧
      newKey.expiresAt = some (0 + jsCeilDiv (864000000 - 0) 86400000 * 86400000) ∧
      (864000000 : Int) ≤ 0 + jsCeilDiv (864000000 - 0) 86400000 * 86400000 ∧
      0 + jsCeilDiv (864000000 - 0) 86400000 * 86400000 < 864000000 + 86400000 ∧
      mapGet st2.keys demoKeyId = none ∧
      KeyManager.getKey st2 0 demoKeyId = .error .keyNotFound) :=
  ⟨rfl, by decide, rfl, rfl, by decide, by decide,
    rotateKey_carryover c6State goodMp demoRng 100 0 demoKeyId c6ExpiringKey 864000000
      rfl (by decide) rfl rfl (by decide) (by decide)⟩

/-! ## SecureStorage (src/src/utils/encryption/secureStorage.ts)

Items are persisted under `localStorage` keys prefixed by the constant
namespace string `'zenithbill_secure_storage_'`; since the prefix is fixed,
the store is embedded as an association list keyed by the unprefixed storage
key. `JSON.stringify`/`JSON.parse` of the payload are embedded as the
identity on the serialized byte form (exact round trip for plain data). -/

/-- Models `btoa` (the `compressData` helper): exact base64, three bytes to
four sextets. -/
def btoa : List Nat → List Nat
  | [] => []
  | [a] => [a / 4, a % 4 * 16]
  | [a, b] => [a / 4, a % 4 * 16 + b / 16, b % 16 * 4]
  | a :: b :: c :: rest =>
    a / 4 :: (a % 4 * 16 + b / 16) :: (b % 16 * 4 + c / 64) :: c % 64 :: btoa rest

/-- Models `atob` (the `decompressData` helper): base64 decode, four sextets
back to three bytes. -/
def atob : List Nat → List Nat
  | [s1, s2] => [s1 * 4 + s2 / 16]
  | [s1, s2, s3] => [s1 * 4 + s2 / 16, s2 % 16 * 16 + s3 / 4]
  | s1 :: s2 :: s3 :: s4 :: rest =>
    (s1 * 4 + s2 / 16) :: (s2 % 16 * 16 + s3 / 4) :: (s3 % 4 * 64 + s4) :: atob rest
  | _ => []

theorem atob_btoa : ∀ l : List Nat, (∀ x ∈ l, x < 256) → atob (btoa l) = l
  | [], _ => rfl
  | [a], h => by
    have ha : a < 256 := h a (by simp)
    simp only [btoa, atob]
    have e1 : a / 4 * 4 + a % 4 * 16 / 16 = a := by omega
    rw [e1]
  | [a, b], h => by
    have ha : a < 256 := h a (by simp)
    have hb : b < 256 := h b (by simp)
    simp only [btoa, atob]
    have e1 : a / 4 * 4 + (a % 4 * 16 + b / 16) / 16 = a := by omega
    have e2 : (a % 4 * 16 + b / 16) % 16 * 16 + b % 16 * 4 / 4 = b := by omega
    rw [e1, e2]
  | a :: b :: c :: rest, h => by
    have ha : a < 256 := h a (by simp)
    have hb : b < 256 := h b (by simp)
    have hc : c < 256 := h c (by simp)
    simp only [btoa, atob]
    rw [atob_btoa rest (fun x hx => h x (by simp [hx]))]
    have e1 : a / 4 * 4 + (a % 4 * 16 + b / 16) / 16 = a := by omega
    have e2 : (a % 4 * 16 + b / 16) % 16 * 16 + (b % 16 * 4 + c / 64) / 4 = b := by omega
    have e3 : (b % 16 * 4 + c / 64) % 4 * 64 + c % 64 = c := by omega
    rw [e1, e2, e3]

theorem btoa_ne_nil {l : List Nat} (h : l ≠ []) : btoa l ≠ [] := by
  match l with
  | [] => exact absurd rfl h
  | [a] => simp [btoa]
  | [a, b] => simp [btoa]
  | a :: b :: c :: rest => simp [btoa]

/-- Models SHA-256 (`generateSecureHash(data)` / `createHash('sha256')`): an
unspecified deterministic digest of the input bytes. -/
def generateSecureHash (data : List Nat) : List Nat :=
  [data.foldl (fun h b => (h * 131 + b + 17) % 340282366920938463463374607431768211456) 5381]

/-- The whitespace class removed by JavaScript `String.prototype.trim`. -/
def isJsWhitespace (c : Nat) : Bool :=
  c = 32 || c = 9 || c = 10 || c = 11 || c = 12 || c = 13

/-- `key.trim()`. -/
def jsTrim (s : List Nat) : List Nat :=
  ((s.dropWhile isJsWhitespace).reverse.dropWhile isJsWhitespace).reverse

/-- The storage-key character class `[a-zA-Z0-9_-]`. -/
def isStorageKeyChar (c : Nat) : Bool :=
  (48 ≤ c && c ≤ 57) || (65 ≤ c && c ≤ 90) || (97 ≤ c && c ≤ 122) || c = 95 || c = 45

/-- `SecureStorage.validateKey` (secureStorage.ts lines 345-358) as a
predicate: non-empty with non-empty trim, at most 100 characters, and all
characters alphanumeric, underscore or dash. -/
def validateKeyB (key : List Nat) : Bool :=
  if key = [] ∨ jsTrim key = [] then false
  else if 100 < key.length then false
  else key.all isStorageKeyChar

/-- `SecureStorage.validatePassword`: at least 8 characters. -/
def validatePasswordB (pw : List Nat) : Bool :=
  decide (8 ≤ pw.length)

inductive StorageError
  | invalidKey
  | invalidPassword
  | notFound
  | expired
  | authenticationFailure
  | integrityFailure
  | parseError
  | encryptionFailed
deriving DecidableEq

structure SecureStorageOptions where
  keyId : Option (List Nat)
  expirationTime : Option Int
  compressionEnabled : Bool
deriving DecidableEq

structure StorageMetadata where
  originalSize : Nat
  encryptedSize : Nat
  checksum : List Nat
  createdAt : Int
  expiresAt : Option Int
  compressed : Bool
  keyId : Option (List Nat)
deriving DecidableEq

structure SecureStorageItem where
  id : List Nat
  encryptedData : EncryptionResult
  metadata : StorageMetadata
deriving DecidableEq

abbrev StorageMap := List (List Nat × SecureStorageItem)

/-- `options.expirationTime ? new Date(Date.now() + options.expirationTime)
: undefined` -- zero milliseconds is falsy. -/
def jsExpiryMs (now : Int) : Option Int → Option Int
  | none => none
  | some t => if t = 0 then none else some (now + t)

/-- `JSON.stringify` of the payload, embedded as the identity on its
serialized byte form. -/
def jsonStringify (data : List Nat) : List Nat := data

/-- `JSON.parse`, the exact inverse of `jsonStringify`. -/
def jsonParse (s : List Nat) : Option (List Nat) := some s

/-- `SecureStorage.store(key, data, password, options)` (secureStorage.ts
lines 38-97): validate key and password, serialize, optionally compress,
checksum the *serialized plaintext*, encrypt the processed payload, persist
the item. -/
def SecureStorage.store (storage : StorageMap) (rng : Nat → Nat) (ctr : Nat) (now : Int)
    (key data password : List Nat) (options : SecureStorageOptions) :
    Except StorageError (StorageMap × Nat) :=
  if validateKeyB key = false then .error .invalidKey
  else if validatePasswordB password = false then .error .invalidPassword
  else
    let serializedData := jsonStringify data
    let processedData :=
      if options.compressionEnabled then btoa serializedData else serializedData
    let checksum := generateSecureHash serializedData
    match encryptText DEFAULT_CONFIG rng ctr processedData password with
    | .error _ => .error .encryptionFailed
    | .ok (encryptionResult, c1) =>
      let storageItem : SecureStorageItem := {
        id := key, encryptedData := encryptionResult,
        metadata := {
          originalSize := serializedData.length,
          encryptedSize := encryptionResult.encryptedData.length,
          checksum := checksum, createdAt := now,
          expiresAt := jsExpiryMs now options.expirationTime,
          compressed := options.compressionEnabled,
          keyId := options.keyId } }
      .ok (mapSet storage key storageItem, c1)

/-- `SecureStorage.retrieve(key, password)` (secureStorage.ts lines
102-154): load, expire (deleting the item as a side effect), decrypt,
decompress if flagged, recompute the checksum over the decompressed
plaintext, fail with IntegrityFailure on mismatch, parse. The storage map
after the call is returned alongside the outcome. -/
def SecureStorage.retrieve (storage : StorageMap) (now : Int) (key password : List Nat) :
    Except StorageError (List Nat) × StorageMap :=
  if validateKeyB key = false then (.error .invalidKey, storage)
  else if validatePasswordB password = false then (.error .invalidPassword, storage)
  else
    match mapGet storage key with
    | none => (.error .notFound, storage)
    | some storageItem =>
      if jsDateLt storageItem.metadata.expiresAt now then
        (.error .expired, mapDelete storage key)
      else
        match decryptText DEFAULT_CONFIG storageItem.encryptedData password with
        | .error _ => (.error .authenticationFailure, storage)
        | .ok decryptedData =>
          let processedData :=
            if storageItem.metadata.compressed then atob decryptedData else decryptedData
          if generateSecureHash processedData ≠ storageItem.metadata.checksum then
            (.error .integrityFailure, storage)
          else
            match jsonParse processedData with
            | some data => (.ok data, storage)
            | none => (.error .parseError, storage)

/-- `SecureStorage.exists(key)` (secureStorage.ts lines 180-188, named
`existsItem` here): the body runs `validateKey` inside a try/catch whose
catch returns `false`, so an invalid key yields `false` instead of an
InvalidKey error; otherwise it reports whether an item is present. -/
def SecureStorage.existsItem (storage : StorageMap) (key : List Nat) : Bool :=
  if validateKeyB key then (mapGet storage key).isSome else false

/-- `'password123'`. -/
def demoPassword : List Nat := [112, 97, 115, 115, 119, 111, 114, 100, 49, 50, 51]

/-- C2: for a valid storage key, non-empty payload and valid password,
`store` succeeds; the persisted item's checksum is the digest of the
serialized plaintext; and a subsequent unexpired `retrieve` under the same
password decrypts, decompresses when flagged, finds the recomputed checksum
equal to the stored one (no IntegrityFailure) and returns the payload. -/
theorem store_retrieve_roundtrip (storage : StorageMap) (rng : Nat → Nat) (ctr : Nat)
    (now1 now2 : Int) (key data password : List Nat) (options : SecureStorageOptions)
    (hkey : validateKeyB key = true) (hpw : validatePasswordB password = true)
    (hdata : data ≠ []) (hbytes : ∀ b ∈ data, b < 256)
    (hexp : jsDateLt (jsExpiryMs now1 options.expirationTime) now2 = false) :
    ∃ storage2 c1,
      SecureStorage.store storage rng ctr now1 key data password options =
        .ok (storage2, c1) ∧
      (∃ item, mapGet storage2 key = some item ∧
        item.metadata.checksum = generateSecureHash (jsonStringify data)) ∧
      SecureStorage.retrieve storage2 now2 key password = (.ok data, storage2) := by
  have hkey' : ¬(validateKeyB key = false) := by simp [hkey]
  have hpw' : ¬(validatePasswordB password = false) := by simp [hpw]
  have hpwne : password ≠ [] := by
    intro hnil
    rw [hnil] at hpw
    simp [validatePasswordB] at hpw
  cases hcomp : options.compressionEnabled with
  | true =>
    have hproc : btoa data ≠ [] := btoa_ne_nil hdata
    cases hE : encryptText DEFAULT_CONFIG rng ctr (btoa data) password with
    | error e =>
      exfalso
      have hcond : ¬(btoa data = [] ∨ password = []) := by
        rintro (h | h)
        · exact hproc h
        · exact hpwne h
      simp [encryptText, hcond] at hE
    | ok pr =>
      obtain ⟨er, c1⟩ := pr
      have hdec := decryptText_of_encryptText hE
      refine ⟨mapSet storage key ⟨key, er, ⟨data.length, er.encryptedData.length,
        generateSecureHash data, now1, jsExpiryMs now1 options.expirationTime, true,
        options.keyId⟩⟩, c1, ?_, ?_, ?_⟩
      · simp only [SecureStorage.store, if_neg hkey', if_neg hpw', jsonStringify, hcomp,
          if_true, hE]
      · exact ⟨_, mapGet_mapSet_self storage key _, rfl⟩
      · simp only [SecureStorage.retrieve, if_neg hkey', if_neg hpw',
          mapGet_mapSet_self, hexp, hdec, atob_btoa data hbytes, jsonParse]
        simp
  | false =>
    cases hE : encryptText DEFAULT_CONFIG rng ctr data password with
    | error e =>
      exfalso
      have hcond : ¬(data = [] ∨ password = []) := by
        rintro (h | h)
        · exact hdata h
        · exact hpwne h
      simp [encryptText, hcond] at hE
    | ok pr =>
      obtain ⟨er, c1⟩ := pr
      have hdec := decryptText_of_encryptText hE
      refine ⟨mapSet storage key ⟨key, er, ⟨data.length, er.encryptedData.length,
        generateSecureHash data, now1, jsExpiryMs now1 options.expirationTime, false,
        options.keyId⟩⟩, c1, ?_, ?_, ?_⟩
      · simp only [SecureStorage.store, if_neg hkey', if_neg hpw', jsonStringify, hcomp]
        simp only [Bool.false_eq_true, if_false, hE]
      · exact ⟨_, mapGet_mapSet_self storage key _, rfl⟩
      · simp only [SecureStorage.retrieve, if_neg hkey', if_neg hpw',
          mapGet_mapSet_self, hexp, hdec, jsonParse]
        simp

set_option maxRecDepth 100000 in
/-- Witness for C2: storing `[1,2,3]` under key `'k'` with `'password123'`
and compression enabled, then retrieving at the same instant, returns the
payload with matching checksums. -/
theorem store_retrieve_roundtrip_witness :
    validateKeyB [107] = true ∧ validatePasswordB demoPassword = true ∧
    ([1, 2, 3] : List Nat) ≠ [] ∧ (∀ b ∈ ([1, 2, 3] : List Nat), b < 256) ∧
    jsDateLt (jsExpiryMs 0 (SecureStorageOptions.mk none none true).expirationTime) 0 =
      false ∧
    (∃ storage2 c1,
      SecureStorage.store [] (fun i => i) 0 0 [107] [1, 2, 3] demoPassword
        ⟨none, none, true⟩ = .ok (storage2, c1) ∧
      (∃ item, mapGet storage2 [107] = some item ∧
        item.metadata.checksum = generateSecureHash (jsonStringify [1, 2, 3])) ∧
      SecureStorage.retrieve storage2 0 [107] demoPassword = (.ok [1, 2, 3], storage2)) :=
  ⟨by decide, by decide, by decide, by decide, rfl,
    store_retrieve_roundtrip [] (fun i => i) 0 0 0 [107] [1, 2, 3] demoPassword
      ⟨none, none, true⟩ (by decide) (by decide) (by decide) (by decide) rfl⟩

theorem dropWhile_ws_eq_self {l : List Nat} (h : ∀ c ∈ l, isJsWhitespace c = false) :
    l.dropWhile isJsWhitespace = l := by
  cases l with
  | nil => rfl
  | cons a rest =>
    have ha := h a (by simp)
    simp [List.dropWhile, ha]

theorem jsTrim_eq_self {l : List Nat} (h : ∀ c ∈ l, isJsWhitespace c = false) :
    jsTrim l = l := by
  unfold jsTrim
  rw [dropWhile_ws_eq_self h,
    dropWhile_ws_eq_self (fun c hc => h c (List.mem_reverse.mp hc)),
    List.reverse_reverse]

/-- C10: `exists` never surfaces an InvalidKey error: on a key failing
validation (empty, over 100 characters, or containing a character outside
alphanumeric/underscore/dash) it returns `false`, and on a valid key it
returns whether an item is stored under it. -/
theorem existsItem_total_characterization (storage : StorageMap) (key : List Nat) :
    ((key = [] ∨ 100 < key.length ∨ ∃ c ∈ key, isStorageKeyChar c = false) →
      SecureStorage.existsItem storage key = false) ∧
    (key ≠ [] → key.length ≤ 100 → (∀ c ∈ key, isStorageKeyChar c = true) →
      SecureStorage.existsItem storage key = (mapGet storage key).isSome) := by
  constructor
  · rintro (h | h | ⟨c, hc, hcf⟩)
    · simp [SecureStorage.existsItem, validateKeyB, h]
    · simp [SecureStorage.existsItem, validateKeyB, h, ite_self]
    · have hall : key.all isStorageKeyChar = false := by
        rw [List.all_eq_false]
        exact ⟨c, hc, by simp [hcf]⟩
      simp [SecureStorage.existsItem, validateKeyB, hall, ite_self]
  · intro h1 h2 h3
    have hnws : ∀ c ∈ key, isJsWhitespace c = false := by
      intro c hc
      have hk := h3 c hc
      simp only [isStorageKeyChar, Bool.or_eq_true, Bool.and_eq_true, decide_eq_true_eq] at hk
      simp only [isJsWhitespace, Bool.or_eq_false_iff, decide_eq_false_iff_not]
      omega
    have htrim : jsTrim key = key := jsTrim_eq_self hnws
    have hA : ¬(key = [] ∨ jsTrim key = []) := by
      rintro (h | h)
      · exact h1 h
      · rw [htrim] at h
        exact h1 h
    have hall : key.all isStorageKeyChar = true := List.all_eq_true.mpr h3
    simp [SecureStorage.existsItem, validateKeyB, hA, Nat.not_lt.mpr h2, hall]

/-- Witness for C10: an all-whitespace key (a single space) fails validation
yet `exists` returns `false` rather than erroring. -/
theorem existsItem_total_characterization_witness :
    SecureStorage.existsItem [] [32] = false :=
  (existsItem_total_characterization [] [32]).1
    (Or.inr (Or.inr ⟨32, by decide, by decide⟩))

/-! ## FileEncryption (src/src/utils/encryption/fileEncryption.ts) -/

/-- A browser `File`: name, byte size, MIME type, and the text content that
`readFileAsText` yields. -/
structure JsFile where
  name : List Nat
  size : Nat
  mimeType : List Nat
  content : List Nat
deriving DecidableEq

inductive FileError
  | fileTooLarge
  | dangerousType
  | weakPassword
  | encryptionFailed
deriving DecidableEq

/-- The MIME types rejected by `validateFile`. -/
def dangerousTypes : List (List Nat) :=
  [[97, 112, 112, 108, 105, 99, 97, 116, 105, 111, 110, 47, 120, 45, 101, 120, 101, 99,
    117, 116, 97, 98, 108, 101],
   [97, 112, 112, 108, 105, 99, 97, 116, 105, 111, 110, 47, 120, 45, 109, 115, 100, 111,
    119, 110, 108, 111, 97, 100],
   [97, 112, 112, 108, 105, 99, 97, 116, 105, 111, 110, 47, 120, 45, 109, 115, 100, 111,
    115, 45, 112, 114, 111, 103, 114, 97, 109]]

/-- `FileEncryption.validateFile` (fileEncryption.ts lines 206-227): at most
50MB and not a dangerous MIME type. -/
def validateFile (f : JsFile) : Except FileError Unit :=
  if 52428800 < f.size then .error .fileTooLarge
  else if f.mimeType ∈ dangerousTypes then .error .dangerousType
  else .ok ()

structure FileMetadata where
  originalName : List Nat
  originalSize : Nat
  encryptedSize : Nat
  mimeType : List Nat
  checksum : List Nat
deriving DecidableEq

structure FileEncryptionResult where
  encryptedContent : List Nat
  metadata : FileMetadata
  encryption : EncryptionResult
deriving DecidableEq

/-- `FileEncryption.encryptFile(file, password)` (fileEncryption.ts lines
28-68): validate the file and password, checksum the content, encrypt it,
wrap the envelope with file metadata. -/
def FileEncryption.encryptFile (rng : Nat → Nat) (ctr : Nat) (f : JsFile)
    (password : List Nat) : Except FileError (FileEncryptionResult × Nat) :=
  match validateFile f with
  | .error e => .error e
  | .ok () =>
    if validatePasswordB password = false then .error .weakPassword
    else
      let fileContent := f.content
      let checksum := generateSecureHash fileContent
      match encryptText DEFAULT_CONFIG rng ctr fileContent password with
      | .error _ => .error .encryptionFailed
      | .ok (encryptionResult, c1) =>
        let result : FileEncryptionResult := {
          encryptedContent := encryptionResult.encryptedData,
          metadata := {
            originalName := f.name, originalSize := f.size,
            encryptedSize := encryptionResult.encryptedData.length,
            mimeType := f.mimeType, checksum := checksum },
          encryption := encryptionResult }
        .ok (result, c1)

/-- Outcome of `encryptMultipleFiles`: `returned` is the function's return
value (the successful results only); `loggedErrors` is the `errors` array
the source builds and hands to the security logger in the
`BATCH_FILE_ENCRYPTION` warning event -- it is never returned. -/
structure BatchOutcome where
  returned : List FileEncryptionResult
  loggedErrors : List (List Nat × FileError)
  ctr : Nat
deriving DecidableEq

/-- `FileEncryption.encryptMultipleFiles(files, password)` (fileEncryption.ts
lines 112-140): encrypt each file in order, pushing successes onto `results`
and failures onto `errors`, never aborting the loop. -/
def FileEncryption.encryptMultipleFiles (rng : Nat → Nat) (ctr : Nat)
    (files : List JsFile) (password : List Nat) : BatchOutcome :=
  match files with
  | [] => ⟨[], [], ctr⟩
  | f :: rest =>
    match FileEncryption.encryptFile rng ctr f password with
    | .ok (result, c1) =>
      let o := FileEncryption.encryptMultipleFiles rng c1 rest password
      ⟨result :: o.returned, o.loggedErrors, o.ctr⟩
    | .error e =>
      let o := FileEncryption.encryptMultipleFiles rng ctr rest password
      ⟨o.returned, (f.name, e) :: o.loggedErrors, o.ctr⟩

def isOkB {ε α : Type} : Except ε α → Bool
  | .ok _ => true
  | .error _ => false

/-- Whether `encryptFile` succeeds -- and on which error it fails -- does
not depend on the random-stream cursor: every failure is decided before any
randomness is drawn. -/
theorem encryptFile_cases (rng : Nat → Nat) (f : JsFile) (pw : List Nat) :
    (∃ e, ∀ ctr, FileEncryption.encryptFile rng ctr f pw = .error e) ∨
    (∀ ctr, ∃ result c1, FileEncryption.encryptFile rng ctr f pw = .ok (result, c1) ∧
      result.metadata.originalName = f.name) := by
  cases hv : validateFile f with
  | error e =>
    left
    exact ⟨e, fun ctr => by simp only [FileEncryption.encryptFile, hv]⟩
  | ok u =>
    cases u
    by_cases hpw : validatePasswordB pw = false
    · left
      exact ⟨.weakPassword, fun ctr => by
        simp only [FileEncryption.encryptFile, hv, hpw, if_true]⟩
    · by_cases hc : f.content = [] ∨ pw = []
      · left
        refine ⟨.encryptionFailed, fun ctr => ?_⟩
        simp only [FileEncryption.encryptFile, hv, if_neg hpw, encryptText, if_pos hc]
      · right
        intro ctr
        cases hE : encryptText DEFAULT_CONFIG rng ctr f.content pw with
        | error e2 => simp [encryptText, hc] at hE
        | ok pr =>
          obtain ⟨er, c1⟩ := pr
          refine ⟨⟨er.encryptedData,
            ⟨f.name, f.size, er.encryptedData.length, f.mimeType,
             generateSecureHash f.content⟩, er⟩, c1, ?_, rfl⟩
          simp only [FileEncryption.encryptFile, hv, if_neg hpw, hE]

/-- C8 (amended): the batch loop processes every file independently and
never aborts: the value returned to the caller lists exactly the files that
encrypt successfully (in order), while the per-file errors are collected
into the list that is only emitted as a warning log event, not returned. -/
theorem encryptMultipleFiles_partial_success (rng : Nat → Nat) (ctr : Nat)
    (files : List JsFile) (password : List Nat) :
    (FileEncryption.encryptMultipleFiles rng ctr files password).returned.map
        (fun r => r.metadata.originalName) =
      (files.filter (fun f => isOkB (FileEncryption.encryptFile rng 0 f password))).map
        JsFile.name ∧
    (FileEncryption.encryptMultipleFiles rng ctr files password).loggedErrors =
      files.filterMap (fun f =>
        match FileEncryption.encryptFile rng 0 f password with
        | .ok _ => none
        | .error e => some (f.name, e)) := by
  induction files generalizing ctr with
  | nil => simp [FileEncryption.encryptMultipleFiles]
  | cons f rest ih =>
    rcases encryptFile_cases rng f password with ⟨e, he⟩ | hok
    · have h0 := he 0
      have hc := he ctr
      constructor
      · simp only [FileEncryption.encryptMultipleFiles, hc, List.filter_cons, h0, isOkB,
          List.map_cons]
        simpa using (ih ctr).1
      · simp only [FileEncryption.encryptMultipleFiles, hc, List.filterMap_cons, h0]
        simpa using congrArg (List.cons (f.name, e)) (ih ctr).2
    · obtain ⟨result, c1, hE, hname⟩ := hok ctr
      obtain ⟨r0, c0, hE0, _⟩ := hok 0
      constructor
      · simp only [FileEncryption.encryptMultipleFiles, hE, List.filter_cons, hE0, isOkB,
          List.map_cons, if_true, hname]
        simpa [hname] using (ih c1).1
      · simp only [FileEncryption.encryptMultipleFiles, hE, List.filterMap_cons, hE0]
        simpa using (ih c1).2

/-- A 50MB+1 file (`'big.bin'`) that `validateFile` rejects. -/
def bigFile : JsFile :=
  { name := [98, 105, 103, 46, 98, 105, 110], size := 52428801, mimeType := [],
    content := [1, 2, 3] }

/-- A small valid text file (`'good.txt'`). -/
def goodFile : JsFile :=
  { name := [103, 111, 111, 100, 46, 116, 120, 116], size := 2,
    mimeType := [116, 101, 120, 116, 47, 112, 108, 97, 105, 110], content := [104, 105] }

set_option maxRecDepth 100000 in
/-- C8 counterexample: on the batch `[bigFile, goodFile]` the oversized
first file fails, the batch continues (the second file is encrypted), yet
the value returned to the caller is a single-element success list carrying
no record of the failure -- the error list exists only in the logged
warning event, so the operation does not return "both the list of
successful results and a list of the per-file errors". -/
theorem encryptMultipleFiles_errors_not_returned :
    (FileEncryption.encryptMultipleFiles (fun i => i) 0 [bigFile, goodFile]
      demoPassword).returned.length = 1 ∧
    (FileEncryption.encryptMultipleFiles (fun i => i) 0 [bigFile, goodFile]
      demoPassword).returned.map (fun r => r.metadata.originalName) = [goodFile.name] ∧
    (FileEncryption.encryptMultipleFiles (fun i => i) 0 [bigFile, goodFile]
      demoPassword).loggedErrors = [(bigFile.name, .fileTooLarge)] :=
  ⟨rfl, rfl, rfl⟩
